import Mathlib

/-
Verification of the LuatPlayground component
(src/src/components/LuatPlayground/index.js).

The component is a thin bridge between a React UI and an external WASM
templating engine.  The embedding below models:
  - the foreign call surface of the loaded module as a deterministic
    oracle (return codes and render results as functions of the call
    arguments),
  - the module registry (the name/source table inside the engine) as an
    explicit list threaded through the bridge calls,
  - runCode, reset, getInitialFiles, getFilesHash and the module-loading
    singleton as pure state-transition functions, each emitting the list
    of foreign calls it makes (the event trace).
-/

namespace LuatSite

/-- A virtual file of the playground editor: the pair (name, code). -/
structure VFile where
  name : String
  code : String
deriving DecidableEq

/-- The parsed render-result JSON: shape (success, html, error)
with html and error nullable. -/
structure RenderResult where
  success : Bool
  html : Option String
  error : Option String
deriving DecidableEq

/-- The foreign call surface of the loaded WASM module, as a deterministic
oracle: the return code of luat_add_template per (path, source), the return
code of luat_clear_templates, the result pointer of luat_render_with_error
per (entry, contextJson) with 0 meaning null, and the parse of the JSON
buffer behind a non-null pointer (none models a JSON.parse throw).
The internal registry of the module is not part of this structure; it is
tracked explicitly as a list of files in the component state. -/
structure WasmModule where
  addCode : String → String → Int
  clearCode : Int
  renderPtr : String → String → Nat
  renderJson : String → String → Option RenderResult

/-- Foreign-call events emitted by the bridge, in call order. -/
inductive Ev where
  | initCall (code : Int)
  | clear
  | add (name code : String)
  | render (entry ctxJson : String)
deriving DecidableEq

/-- True exactly on render events. -/
def Ev.isRender : Ev → Bool
  | Ev.render _ _ => true
  | _ => false

/-- Bridge addTemplate (index.js lines 77-80): calls luat_add_template and
throws `Failed to add template: <path>` on a non-zero return code.  On
success the registry gains the (path, source) pair.  Inside the component a
rebuild always starts from clearTemplates, so representing the registry as
the list of pairs added since the last clear is exact here (name
replacement inside the engine is not observable through these runs). -/
def addTemplate (M : WasmModule) (reg : List VFile) (path source : String) :
    Except String (List VFile) :=
  if M.addCode path source = 0 then
    Except.ok (reg ++ [⟨path, source⟩])
  else
    Except.error ("Failed to add template: " ++ path)

/-- Bridge clearTemplates (index.js lines 81-83): calls
luat_clear_templates and discards its return code, so it never throws; the
registry is emptied. -/
def clearTemplates (M : WasmModule) (reg : List VFile) :
    Except String (List VFile) :=
  let _ := M.clearCode
  let _ := reg
  Except.ok []

/-- Bridge renderWithError (index.js lines 84-93): serializes the context
(always the empty object in runCode), calls luat_render_with_error; a null
result pointer yields the fixed internal-error result without any free;
otherwise the returned buffer is read, freed, and parsed (a JSON.parse
failure throws, after the free).  The second component counts the calls to
_luat_free_string made during the call. -/
def renderWithError (M : WasmModule) (entry ctxJson : String) :
    Except String RenderResult × Nat :=
  if M.renderPtr entry ctxJson = 0 then
    (Except.ok { success := false, html := none, error := some "Internal error" }, 0)
  else
    match M.renderJson entry ctxJson with
    | some r => (Except.ok r, 1)
    | none => (Except.error "SyntaxError: JSON parse failed", 1)

/-- The join of a list of strings with the separator bar, exactly the JS
Array.prototype.join used by getFilesHash. -/
def joinBar : List String → String
  | [] => ""
  | [s] => s
  | s :: t :: rest => s ++ "|" ++ joinBar (t :: rest)

/-- The per-file fragment of the content hash: name, colon, code. -/
def encFile (f : VFile) : String := f.name ++ ":" ++ f.code

/-- getFilesHash (index.js lines 305-307): the content hash of the file
list, built as the bar-joined list of name-colon-code fragments. -/
def getFilesHash (files : List VFile) : String :=
  joinBar (files.map encFile)

/-- getInitialFiles (index.js lines 122-130): a non-empty files prop is
used as is; otherwise a non-empty (truthy) code prop yields the single
main.luat file; otherwise the single empty main.luat file. -/
def getInitialFiles (initialCode : String) (initialFiles : List VFile) :
    List VFile :=
  if 0 < initialFiles.length then
    initialFiles
  else if initialCode ≠ "" then
    [⟨"main.luat", initialCode⟩]
  else
    [⟨"main.luat", ""⟩]

/-- The UI state slice touched by runCode and reset: output, error,
compileTime, renderTime, cached.  Times are kept as raw millisecond values
(the display-only formatTime of index.js lines 297-302 is elided). -/
structure UIState where
  output : Option String
  error : Option String
  compileTime : Option ℚ
  renderTime : Option ℚ
  cached : Bool
deriving DecidableEq

/-- The playground state relevant to a run: the virtual files, the
single-slot compilation cache lastCompiledRef (null modelled as none), the
registry contents of the external module, the UI state, and the index of
the next performance.now sample in the clock stream. -/
structure PGState where
  files : List VFile
  lastCompiled : Option String
  reg : List VFile
  ui : UIState
  clk : Nat
deriving DecidableEq

/-- The catch handler of runCode (index.js lines 356-361): setError with
the thrown message, setOutput to the empty string, and both time displays
cleared.  The cached flag is not touched by the handler. -/
def catchUI (ui : UIState) (msg : String) : UIState :=
  { ui with
    error := some msg, output := some "",
    compileTime := none, renderTime := none }

/-- The template-reload loop of runCode (index.js lines 323-325): one
addTemplate call per file, in order, stopping at the first throw.  Returns
the registry reached, the events emitted (appended to evs), and the thrown
message if any. -/
def addAll (M : WasmModule) :
    List VFile → List VFile → List Ev → List VFile × List Ev × Option String
  | reg, [], evs => (reg, evs, none)
  | reg, f :: rest, evs =>
    match addTemplate M reg f.name f.code with
    | Except.ok reg2 => addAll M reg2 rest (evs ++ [Ev.add f.name f.code])
    | Except.error e => (reg, evs ++ [Ev.add f.name f.code], some e)

/-- The entry-point choice of runCode (index.js line 335): the file named
main.luat, or the first file; none only when the list is empty. -/
def entryFileOf (files : List VFile) : Option VFile :=
  match files.find? (fun f => f.name = "main.luat") with
  | some f => some f
  | none => files.head?

/-- The render-sampling loop of runCode (index.js lines 338-344): each
iteration takes a performance.now pair around one renderWithError call; a
throw escapes the loop.  Returns the next clock index, the events emitted
(appended to evs), and either the sampled durations with the last result
or the thrown message. -/
def sampleLoop (M : WasmModule) (clock : Nat → ℚ) (entry : String) :
    Nat → Nat → List ℚ → List Ev → Option RenderResult →
      Nat × List Ev × Except String (List ℚ × Option RenderResult)
  | 0, clk, acc, evs, last => (clk, evs, Except.ok (acc, last))
  | n + 1, clk, acc, evs, _last =>
    match renderWithError M entry "{}" with
    | (Except.error e, _) => (clk + 1, evs ++ [Ev.render entry "{}"], Except.error e)
    | (Except.ok r, _) =>
      sampleLoop M clock entry n (clk + 2) (acc ++ [clock (clk + 1) - clock clk])
        (evs ++ [Ev.render entry "{}"]) (some r)

/-- Math.min over the sampled durations (index.js line 346); the loop
always yields three samples, so the empty case is unreachable. -/
def minSamples : List ℚ → ℚ
  | [] => 0
  | [d] => d
  | d :: t :: rest => min d (minSamples (t :: rest))

/-- The render phase of runCode (index.js lines 334-355), shared by the
cached and the recompiled path: pick the entry file, sample the render
three times, keep the minimum as the render time, then either display the
fresh html (success) or display the error and clear the output.  A throw
anywhere (including the TypeError that reading entryFile.name would raise
on an empty file list) lands in the catch handler. -/
def renderPhase (M : WasmModule) (clock : Nat → ℚ) (s : PGState)
    (evs : List Ev) : PGState × List Ev :=
  match entryFileOf s.files with
  | none =>
    ({ s with ui := catchUI s.ui "entryFile is undefined" }, evs)
  | some entry =>
    match sampleLoop M clock entry.name 3 s.clk [] evs none with
    | (clk2, evs2, Except.error e) =>
      ({ s with clk := clk2, ui := catchUI s.ui e }, evs2)
    | (clk2, evs2, Except.ok (samples, some r)) =>
      let ui2 := { s.ui with renderTime := some (minSamples samples) }
      if r.success then
        ({ s with
           clk := clk2,
           ui := { ui2 with output := r.html, error := none } }, evs2)
      else
        ({ s with
           clk := clk2,
           ui := { ui2 with error := r.error, output := some "" } }, evs2)
    | (clk2, evs2, Except.ok (_, none)) =>
      ({ s with clk := clk2, ui := catchUI s.ui "result is undefined" }, evs2)

/-- runCode with the module loaded (index.js lines 309-362).  The hash of
the current files is compared against the single-slot cache: on a match
the registry is left untouched and the run is marked cached; otherwise the
registry is cleared and every file re-added (a throw lands in the catch
handler, leaving lastCompiled untouched), the new hash is recorded and the
compile time displayed.  Either way the render phase follows. -/
def runCodeLoaded (M : WasmModule) (clock : Nat → ℚ) (s : PGState) :
    PGState × List Ev :=
  let currentHash := getFilesHash s.files
  if s.lastCompiled = some currentHash then
    renderPhase M clock { s with ui := { s.ui with cached := true } } []
  else
    let compileStart := clock s.clk
    match clearTemplates M s.reg with
    | Except.error e =>
      ({ s with clk := s.clk + 1, ui := catchUI s.ui e }, [Ev.clear])
    | Except.ok reg0 =>
      match addAll M reg0 s.files [Ev.clear] with
      | (reg2, evs2, some e) =>
        ({ s with reg := reg2, clk := s.clk + 1, ui := catchUI s.ui e }, evs2)
      | (reg2, evs2, none) =>
        let compileMs := clock (s.clk + 1) - compileStart
        renderPhase M clock
          { s with
            reg := reg2, clk := s.clk + 2,
            lastCompiled := some currentHash,
            ui := { s.ui with cached := false, compileTime := some compileMs } }
          evs2

/-- runCode (index.js lines 309-311): a run attempt with no loaded module
returns immediately, making no foreign call and changing nothing. -/
def runCode (luat : Option WasmModule) (clock : Nat → ℚ) (s : PGState) :
    PGState × List Ev :=
  match luat with
  | none => (s, [])
  | some M => runCodeLoaded M clock s

/-- reset (index.js lines 364-383): restore the initial files, clear the
error, output, both time displays and the cached flag, and invalidate the
compilation cache (lastCompiledRef.current = null).  The external registry
is not touched. -/
def reset (initialCode : String) (initialFiles : List VFile) (s : PGState) :
    PGState :=
  { s with
    files := getInitialFiles initialCode initialFiles,
    ui := { output := some "", error := none, compileTime := none,
            renderTime := none, cached := false },
    lastCompiled := none }

/-- The cache invariant of the spec: the stored content hash corresponds
exactly to the current registry contents of the external module, or the
cache slot is empty. -/
def cacheInv (s : PGState) : Prop :=
  s.lastCompiled = none ∨ s.lastCompiled = some (getFilesHash s.reg)

instance (s : PGState) : Decidable (cacheInv s) := by
  unfold cacheInv; infer_instance

/-- The module-level loader singleton (index.js lines 39-48, 96-99): the
resolved instance slot luatModule and the in-flight promise slot
luatLoading, plus a count of fetch-and-initialize sequences begun (entries
into the else branch of loadLuatModule).  There is only ever one
underlying job, identified as 0. -/
structure LoadState where
  modl : Option Nat
  loading : Option Nat
  starts : Nat
deriving DecidableEq

/-- The loader state before any call: both slots null. -/
def initLoad : LoadState := { modl := none, loading := none, starts := 0 }

/-- One call to loadLuatModule (index.js lines 46-50, 99): a resolved
instance is returned as is; an in-flight promise is returned as is; only
otherwise is a new fetch-and-initialize sequence begun and its promise
stored.  The returned Nat is the identity of the promise or instance the
caller receives. -/
def loadCall (s : LoadState) : LoadState × Nat :=
  match s.modl with
  | some m => (s, m)
  | none =>
    match s.loading with
    | some j => (s, j)
    | none => ({ s with loading := some 0, starts := s.starts + 1 }, 0)

/-- Completion of the in-flight load (index.js lines 76-97): on success
luatModule is set to the loaded instance (luatLoading keeps holding the
resolved promise); on failure (script error or non-zero init) the promise
rejects and both slots are left as they are, so no retry is ever begun. -/
def loadComplete (ok : Bool) (s : LoadState) : LoadState :=
  if ok then
    match s.loading with
    | some j => { s with modl := some j }
    | none => s
  else s

/-- Loader events: a call to loadLuatModule, or the completion (success or
failure) of the in-flight fetch-and-initialize sequence.  The JS event
loop interleaves these arbitrarily; calls before the first completion are
the concurrent-mount case. -/
inductive LEv where
  | call
  | complete (ok : Bool)
deriving DecidableEq

/-- Run a sequence of loader events, collecting the value every call
resolves to. -/
def loadSteps : LoadState → List LEv → LoadState × List Nat
  | s, [] => (s, [])
  | s, LEv.call :: rest =>
    let p := loadCall s
    let q := loadSteps p.1 rest
    (q.1, p.2 :: q.2)
  | s, LEv.complete ok :: rest => loadSteps (loadComplete ok s) rest

/-- Session-level actions on one playground instance: the (single) module
load resolving with the given script outcome and init return code, a run,
a reset, and an editor change of the file at an index. -/
inductive SAct where
  | load (scriptOk : Bool) (initCode : Int)
  | run
  | reset
  | edit (i : Nat) (f : VFile)

/-- Session state: the playground state, whether setLuat has delivered the
loaded module, and whether the loader singleton already holds a promise
(so a second mount never re-fetches or re-initializes). -/
structure SessState where
  pg : PGState
  luat : Bool
  loadStarted : Bool

/-- One session step.  A load action calls luat_init (emitting its return
code) only when the script loaded and no load was started before; the
module becomes available only on a zero init code.  A run goes through
runCode, which returns immediately when the module is not available. -/
def sessStep (M : WasmModule) (clock : Nat → ℚ) (icode : String)
    (ifiles : List VFile) (s : SessState) : SAct → SessState × List Ev
  | SAct.load scriptOk c =>
    if s.loadStarted then (s, [])
    else if scriptOk then
      ({ s with loadStarted := true, luat := (c = 0) }, [Ev.initCall c])
    else ({ s with loadStarted := true }, [])
  | SAct.run =>
    let p := runCode (if s.luat then some M else none) clock s.pg
    ({ s with pg := p.1 }, p.2)
  | SAct.reset => ({ s with pg := reset icode ifiles s.pg }, [])
  | SAct.edit i f => ({ s with pg := { s.pg with files := s.pg.files.set i f } }, [])

/-- Run a list of session actions, concatenating the foreign-call traces. -/
def sessRun (M : WasmModule) (clock : Nat → ℚ) (icode : String)
    (ifiles : List VFile) : SessState → List SAct → SessState × List Ev
  | s, [] => (s, [])
  | s, a :: rest =>
    let p := sessStep M clock icode ifiles s a
    let q := sessRun M clock icode ifiles p.1 rest
    (q.1, p.2 ++ q.2)

/-- The session state at mount: initial files, empty cache, no module. -/
def initSess (icode : String) (ifiles : List VFile) : SessState :=
  { pg := { files := getInitialFiles icode ifiles, lastCompiled := none,
            reg := [], clk := 0,
            ui := { output := some "", error := none, compileTime := none,
                    renderTime := none, cached := false } },
    luat := false, loadStarted := false }

/-- Holds when no render call occurs before the first successful init call
in a foreign-call trace. -/
def noRenderBeforeInit : List Ev → Bool
  | [] => true
  | Ev.initCall c :: rest => if c = 0 then true else noRenderBeforeInit rest
  | Ev.render _ _ :: _ => false
  | Ev.clear :: rest => noRenderBeforeInit rest
  | Ev.add _ _ :: rest => noRenderBeforeInit rest

/-- The durations produced by n render samples starting at clock index
clk: each sample is the difference of a performance.now pair. -/
def sampleDurs (clock : Nat → ℚ) : Nat → Nat → List ℚ
  | _clk, 0 => []
  | clk, Nat.succ n => (clock (clk + 1) - clock clk) :: sampleDurs clock (clk + 2) n

/-- The reachable loader states: untouched, or exactly one begun
fetch-and-initialize sequence whose promise is job 0 and whose resolved
instance, if any, is job 0. -/
def LoadInv (s : LoadState) : Prop :=
  (s.starts = 0 ∧ s.loading = none ∧ s.modl = none) ∨
  (s.starts = 1 ∧ s.loading = some 0 ∧ (s.modl = none ∨ s.modl = some 0))

/-- A constant clock: every performance.now sample reads 0. -/
def clock0 : Nat → ℚ := fun _ => 0

/-- A concrete module whose add_template call fails exactly on the path b
and whose render succeeds with a fixed html. -/
def mAddFailB : WasmModule :=
  { addCode := fun path _ => if path = "b" then 1 else 0,
    clearCode := 0,
    renderPtr := fun _ _ => 1,
    renderJson := fun _ _ => some { success := true, html := some "<h1>2</h1>", error := none } }

/-- A concrete module whose render reports a template-level failure. -/
def mRenderFail : WasmModule :=
  { addCode := fun _ _ => 0,
    clearCode := 0,
    renderPtr := fun _ _ => 1,
    renderJson := fun _ _ => some { success := false, html := none, error := some "Unclosed if block" } }

/-- A concrete module whose clear_templates call returns a non-zero code. -/
def mClearFail : WasmModule :=
  { addCode := fun _ _ => 0,
    clearCode := 7,
    renderPtr := fun _ _ => 1,
    renderJson := fun _ _ => some { success := true, html := some "<p>x</p>", error := none } }

/-- A playground state that has displayed a successful run of the single
file a with code 1: the cache holds that hash and the registry holds that
file, so the cache invariant holds. -/
def sCompiledA1 : PGState :=
  { files := [⟨"a", "1"⟩], lastCompiled := some "a:1", reg := [⟨"a", "1"⟩],
    ui := { output := some "<h1>1</h1>", error := none,
            compileTime := some 1, renderTime := some 1, cached := false },
    clk := 0 }

/-- A concrete module whose render call returns a null pointer. -/
def mNullPtr : WasmModule :=
  { addCode := fun _ _ => 0,
    clearCode := 0,
    renderPtr := fun _ _ => 0,
    renderJson := fun _ _ => none }

/-- First run of the C1 scenario: edit the compiled a-1 state to the pair
a-2, b-x and run against the module that rejects b. -/
def c1run1 : PGState × List Ev :=
  runCodeLoaded mAddFailB clock0
    { sCompiledA1 with files := [⟨"a", "2"⟩, ⟨"b", "x"⟩] }

/-- Second run of the C1 scenario: edit back to the original a-1 content
and run again. -/
def c1run2 : PGState × List Ev :=
  runCodeLoaded mAddFailB clock0 { c1run1.1 with files := [⟨"a", "1"⟩] }

theorem stringDataInj (a b : String) (h : a.data = b.data) : a = b := by
  cases a; cases b; exact congrArg String.mk h

theorem strCancelRight (a b c : String) (h : a ++ c = b ++ c) : a = b := by
  have hd : a.data ++ c.data = b.data ++ c.data := by
    have := congrArg String.data h
    simpa using this
  exact stringDataInj a b (List.append_cancel_right hd)

theorem strCancelLeft (a b c : String) (h : a ++ b = a ++ c) : b = c := by
  have hd : a.data ++ b.data = a.data ++ c.data := by
    have := congrArg String.data h
    simpa using this
  exact stringDataInj b c (List.append_cancel_left hd)

/-- Two files that agree on one field and have equal hash fragments are
equal. -/
theorem encFile_inj_of_shared_field (f g : VFile)
    (hf : f.name = g.name ∨ f.code = g.code) (h : encFile f = encFile g) :
    f = g := by
  unfold encFile at h
  cases hf with
  | inl hn =>
    rw [hn] at h
    have hc := strCancelLeft (g.name ++ ":") f.code g.code h
    cases f; cases g
    simp_all
  | inr hc =>
    rw [hc] at h
    have hn := strCancelRight (f.name ++ ":") (g.name ++ ":") g.code h
    have hn2 := strCancelRight f.name g.name ":" hn
    cases f; cases g
    simp_all

theorem joinBar_cons_of_ne_nil (x : String) (l : List String) (h : l ≠ []) :
    joinBar (x :: l) = x ++ "|" ++ joinBar l := by
  cases l with
  | nil => exact absurd rfl h
  | cons y t => rfl

/-- Editing a single file in place, changing its code while keeping its
name (or its name while keeping its code), always changes the content
hash. -/
theorem getFilesHash_single_edit_ne (p q : List VFile) (f g : VFile)
    (hne : f ≠ g) (hfield : f.name = g.name ∨ f.code = g.code) :
    getFilesHash (p ++ f :: q) ≠ getFilesHash (p ++ g :: q) := by
  induction p with
  | nil =>
    intro h
    unfold getFilesHash at h
    cases q with
    | nil =>
      simp only [List.nil_append, List.map] at h
      exact hne (encFile_inj_of_shared_field f g hfield h)
    | cons r t =>
      simp only [List.nil_append, List.map] at h
      rw [joinBar_cons_of_ne_nil (encFile f) (encFile r :: List.map encFile t)
            (by simp),
          joinBar_cons_of_ne_nil (encFile g) (encFile r :: List.map encFile t)
            (by simp)] at h
      have h2 := strCancelRight _ _ _ h
      have h3 := strCancelRight _ _ _ h2
      exact hne (encFile_inj_of_shared_field f g hfield h3)
  | cons x p ih =>
    intro h
    unfold getFilesHash at h
    simp only [List.cons_append, List.map, List.append_eq] at h
    rw [joinBar_cons_of_ne_nil (encFile x) (List.map encFile (p ++ f :: q))
          (by simp),
        joinBar_cons_of_ne_nil (encFile x) (List.map encFile (p ++ g :: q))
          (by simp)] at h
    have h2 := strCancelLeft _ _ _ h
    exact ih h2

/-- When every file is accepted by the module, the reload loop adds every
file in order and throws nothing. -/
theorem addAll_ok (M : WasmModule) (files : List VFile)
    (h : ∀ f ∈ files, M.addCode f.name f.code = 0) :
    ∀ reg evs, addAll M reg files evs
      = (reg ++ files, evs ++ files.map (fun f => Ev.add f.name f.code),
         none) := by
  induction files with
  | nil => intro reg evs; simp [addAll]
  | cons f rest ih =>
    intro reg evs
    have hf : M.addCode f.name f.code = 0 := h f (by simp)
    simp only [addAll, addTemplate, hf, if_pos]
    rw [ih (fun x hx => h x (by simp [hx]))]
    simp

/-- The reload loop only appends events, and appends no render event. -/
theorem addAll_evs (M : WasmModule) :
    ∀ (files reg : List VFile) (evs : List Ev),
      ∃ ext, (addAll M reg files evs).2.1 = evs ++ ext ∧
        ∀ e ∈ ext, e.isRender = false := by
  intro files
  induction files with
  | nil => intro reg evs; exact ⟨[], by simp [addAll], by simp⟩
  | cons f rest ih =>
    intro reg evs
    by_cases hf : M.addCode f.name f.code = 0
    · simp only [addAll, addTemplate, hf, if_pos]
      obtain ⟨ext, hext, hnr⟩ := ih (reg ++ [⟨f.name, f.code⟩]) (evs ++ [Ev.add f.name f.code])
      refine ⟨Ev.add f.name f.code :: ext, ?_, ?_⟩
      · rw [hext]; simp
      · intro e he
        rcases List.mem_cons.mp he with h1 | h1
        · rw [h1]; rfl
        · exact hnr e h1
    · simp only [addAll, addTemplate, hf, if_neg]
      exact ⟨[Ev.add f.name f.code], by simp, by simp [Ev.isRender]⟩

/-- The sampling loop under a non-throwing render: it runs all n
iterations, emits n render events, consumes n performance.now pairs and
collects the n durations, ending on the common result. -/
theorem sampleLoop_ok (M : WasmModule) (clock : Nat → ℚ) (e : String)
    (r : RenderResult) (k : Nat)
    (h : renderWithError M e "{}" = (Except.ok r, k)) :
    ∀ n clk acc evs last,
      sampleLoop M clock e n clk acc evs last
        = (clk + 2 * n, evs ++ List.replicate n (Ev.render e "{}"),
           Except.ok (acc ++ sampleDurs clock clk n,
             if n = 0 then last else some r)) := by
  intro n
  induction n with
  | zero =>
    intro clk acc evs last
    simp [sampleLoop, sampleDurs]
  | succ n ih =>
    intro clk acc evs last
    rw [sampleLoop, h]
    dsimp only
    rw [ih (clk + 2) (acc ++ [clock (clk + 1) - clock clk])
        (evs ++ [Ev.render e "{}"]) (some r)]
    simp only [Prod.mk.injEq, List.append_assoc, List.singleton_append]
    refine ⟨by omega, ?_, ?_⟩
    · rw [← List.replicate_succ]
    · rw [sampleDurs]
      simp [ite_self]

/-- The sampling loop only appends events, all of them renders of the
given entry with the empty context. -/
theorem sampleLoop_evs (M : WasmModule) (clock : Nat → ℚ) (e : String) :
    ∀ n clk acc evs last,
      ∃ ext, (sampleLoop M clock e n clk acc evs last).2.1 = evs ++ ext ∧
        ∀ x ∈ ext, x = Ev.render e "{}" := by
  intro n
  induction n with
  | zero =>
    intro clk acc evs last
    exact ⟨[], by simp [sampleLoop], by simp⟩
  | succ n ih =>
    intro clk acc evs last
    rcases hre : renderWithError M e "{}" with ⟨res, kk⟩
    cases res with
    | error msg =>
      rw [sampleLoop, hre]
      exact ⟨[Ev.render e "{}"], by simp, by simp⟩
    | ok r =>
      rw [sampleLoop, hre]
      obtain ⟨ext, hext, hx⟩ := ih (clk + 2) (acc ++ [clock (clk + 1) - clock clk])
        (evs ++ [Ev.render e "{}"]) (some r)
      refine ⟨Ev.render e "{}" :: ext, ?_, ?_⟩
      · rw [hext]; simp
      · intro x hxm
        rcases List.mem_cons.mp hxm with h1 | h1
        · exact h1
        · exact hx x h1

/-- The render phase never touches the files, the cache slot, the
registry or the cached flag, and only appends render events. -/
theorem renderPhase_facts (M : WasmModule) (clock : Nat → ℚ) (s : PGState)
    (evs : List Ev) :
    (renderPhase M clock s evs).1.files = s.files ∧
    (renderPhase M clock s evs).1.lastCompiled = s.lastCompiled ∧
    (renderPhase M clock s evs).1.reg = s.reg ∧
    (renderPhase M clock s evs).1.ui.cached = s.ui.cached ∧
    ∃ ext, (renderPhase M clock s evs).2 = evs ++ ext ∧
      ∀ x ∈ ext, x.isRender = true := by
  unfold renderPhase
  cases he : entryFileOf s.files with
  | none =>
    exact ⟨rfl, rfl, rfl, rfl, [], by simp, by simp⟩
  | some entry =>
    dsimp only
    obtain ⟨ext, hext, hx⟩ := sampleLoop_evs M clock entry.name 3 s.clk [] evs none
    rcases hsl : sampleLoop M clock entry.name 3 s.clk [] evs none with ⟨clk2, evs2, res⟩
    rw [hsl] at hext
    have hxr : ∀ x ∈ ext, x.isRender = true := by
      intro x hm; rw [hx x hm]; rfl
    cases res with
    | error msg => exact ⟨rfl, rfl, rfl, rfl, ext, hext, hxr⟩
    | ok pair =>
      rcases pair with ⟨samples, last⟩
      cases last with
      | none => exact ⟨rfl, rfl, rfl, rfl, ext, hext, hxr⟩
      | some r =>
        by_cases hs : r.success = true
        · simp only [hs, if_true]
          exact ⟨trivial, trivial, trivial, trivial, ext, hext, hxr⟩
        · simp only [Bool.not_eq_true] at hs
          simp only [hs, Bool.false_eq_true, if_false]
          exact ⟨trivial, trivial, trivial, trivial, ext, hext, hxr⟩

/-- The render phase under a non-throwing render reporting success: three
samples are taken, the minimum kept, and the fresh html displayed with the
error cleared. -/
theorem renderPhase_ok_true (M : WasmModule) (clock : Nat → ℚ) (s : PGState)
    (entry : VFile) (r : RenderResult) (k : Nat) (evs : List Ev)
    (he : entryFileOf s.files = some entry)
    (hr : renderWithError M entry.name "{}" = (Except.ok r, k))
    (hs : r.success = true) :
    renderPhase M clock s evs
      = ({ s with
           clk := s.clk + 6,
           ui := { s.ui with
                   renderTime := some (minSamples (sampleDurs clock s.clk 3)),
                   output := r.html, error := none } },
         evs ++ List.replicate 3 (Ev.render entry.name "{}")) := by
  unfold renderPhase
  rw [he]
  dsimp only
  rw [sampleLoop_ok M clock entry.name r k hr 3 s.clk [] evs none]
  simp [hs]

/-- The render phase under a non-throwing render reporting failure: three
samples are taken, the minimum kept, the error displayed and the output
cleared. -/
theorem renderPhase_ok_false (M : WasmModule) (clock : Nat → ℚ) (s : PGState)
    (entry : VFile) (r : RenderResult) (k : Nat) (evs : List Ev)
    (he : entryFileOf s.files = some entry)
    (hr : renderWithError M entry.name "{}" = (Except.ok r, k))
    (hs : r.success = false) :
    renderPhase M clock s evs
      = ({ s with
           clk := s.clk + 6,
           ui := { s.ui with
                   renderTime := some (minSamples (sampleDurs clock s.clk 3)),
                   error := r.error, output := some "" } },
         evs ++ List.replicate 3 (Ev.render entry.name "{}")) := by
  unfold renderPhase
  rw [he]
  dsimp only
  rw [sampleLoop_ok M clock entry.name r k hr 3 s.clk [] evs none]
  simp [hs]

/-- A run whose hash matches the cache goes straight to the render phase
with the cached flag set and no compile-phase event. -/
theorem runCodeLoaded_cached (M : WasmModule) (clock : Nat → ℚ) (s : PGState)
    (h : s.lastCompiled = some (getFilesHash s.files)) :
    runCodeLoaded M clock s
      = renderPhase M clock { s with ui := { s.ui with cached := true } } [] := by
  simp only [runCodeLoaded, if_pos h]

/-- A run whose hash differs and whose reload loop throws lands in the
catch handler with the partial registry and the cache slot untouched. -/
theorem runCodeLoaded_changed_fail (M : WasmModule) (clock : Nat → ℚ)
    (s : PGState) (reg2 : List VFile) (evs2 : List Ev) (msg : String)
    (h : ¬ s.lastCompiled = some (getFilesHash s.files))
    (haf : addAll M [] s.files [Ev.clear] = (reg2, evs2, some msg)) :
    runCodeLoaded M clock s
      = ({ s with reg := reg2, clk := s.clk + 1, ui := catchUI s.ui msg },
         evs2) := by
  simp only [runCodeLoaded, if_neg h, clearTemplates]
  rw [haf]

/-- A run whose hash differs and whose reload loop succeeds records the
new hash, marks the run not cached, stores the compile time and proceeds
to the render phase with the rebuilt registry. -/
theorem runCodeLoaded_changed_ok (M : WasmModule) (clock : Nat → ℚ)
    (s : PGState) (reg2 : List VFile) (evs2 : List Ev)
    (h : ¬ s.lastCompiled = some (getFilesHash s.files))
    (haf : addAll M [] s.files [Ev.clear] = (reg2, evs2, none)) :
    runCodeLoaded M clock s
      = renderPhase M clock
          { s with
            reg := reg2, clk := s.clk + 2,
            lastCompiled := some (getFilesHash s.files),
            ui := { s.ui with
                    cached := false,
                    compileTime := some (clock (s.clk + 1) - clock s.clk) } }
          evs2 := by
  simp only [runCodeLoaded, if_neg h, clearTemplates]
  rw [haf]

/-- Whenever the entry file exists, its render does not throw, and a
needed recompile succeeds, the run reaches the render phase, carrying over
the files and having emitted no render event before it. -/
theorem runCodeLoaded_reaches_render (M : WasmModule) (clock : Nat → ℚ)
    (s : PGState)
    (hcomp : s.lastCompiled ≠ some (getFilesHash s.files) →
      (addAll M [] s.files [Ev.clear]).2.2 = none) :
    ∃ s1 evs1,
      runCodeLoaded M clock s = renderPhase M clock s1 evs1 ∧
      s1.files = s.files ∧ s1.ui.output = s.ui.output ∧
      (∀ e ∈ evs1, e.isRender = false) := by
  by_cases hc : s.lastCompiled = some (getFilesHash s.files)
  · exact ⟨_, [], runCodeLoaded_cached M clock s hc, rfl, rfl, by simp⟩
  · have h2 := hcomp hc
    obtain ⟨ext, hext, hnr⟩ := addAll_evs M s.files [] [Ev.clear]
    have haf : addAll M [] s.files [Ev.clear]
        = ((addAll M [] s.files [Ev.clear]).1,
           (addAll M [] s.files [Ev.clear]).2.1, none) := by
      rw [← h2]
    refine ⟨_, (addAll M [] s.files [Ev.clear]).2.1,
      runCodeLoaded_changed_ok M clock s _ _ hc haf, rfl, rfl, ?_⟩
    rw [hext]
    intro e he2
    rcases List.mem_append.mp he2 with h1 | h1
    · rw [List.mem_singleton.mp h1]; rfl
    · exact hnr e h1

/-- C3: with an unchanged content hash a run is reported cached and makes
only render calls, leaving files, cache slot and registry untouched (so
every later unchanged run behaves the same); after a single-file edit of
the name or the code, the next run is reported not cached and performs the
full clear-and-re-add of every file, recording the new hash, before any
render call. -/
theorem c3_compile_cache (M : WasmModule) (clock : Nat → ℚ) (s : PGState)
    (p q : List VFile) (f g : VFile) :
    (s.lastCompiled = some (getFilesHash s.files) →
      (runCodeLoaded M clock s).1.ui.cached = true ∧
      (runCodeLoaded M clock s).2.all Ev.isRender = true ∧
      (runCodeLoaded M clock s).1.files = s.files ∧
      (runCodeLoaded M clock s).1.lastCompiled = s.lastCompiled ∧
      (runCodeLoaded M clock s).1.reg = s.reg) ∧
    (s.files = p ++ f :: q → f ≠ g → (f.name = g.name ∨ f.code = g.code) →
      s.lastCompiled = some (getFilesHash s.files) →
      (∀ x ∈ p ++ g :: q, M.addCode x.name x.code = 0) →
      (runCodeLoaded M clock { s with files := p ++ g :: q }).1.ui.cached
        = false ∧
      (runCodeLoaded M clock { s with files := p ++ g :: q }).1.lastCompiled
        = some (getFilesHash (p ++ g :: q)) ∧
      (runCodeLoaded M clock { s with files := p ++ g :: q }).1.reg
        = p ++ g :: q ∧
      ∃ ext,
        (runCodeLoaded M clock { s with files := p ++ g :: q }).2
          = Ev.clear :: ((p ++ g :: q).map (fun x => Ev.add x.name x.code))
              ++ ext ∧
        ∀ x ∈ ext, x.isRender = true) := by
  constructor
  · intro hc
    rw [runCodeLoaded_cached M clock s hc]
    obtain ⟨hf, hl, hg, hcch, ext, hext, hxr⟩ :=
      renderPhase_facts M clock { s with ui := { s.ui with cached := true } } []
    refine ⟨by rw [hcch], ?_, hf, hl, hg⟩
    rw [hext, List.nil_append, List.all_eq_true]
    exact hxr
  · intro hfq hne hfield hc hadd
    have hc2 : ¬ ({ s with files := p ++ g :: q } : PGState).lastCompiled
        = some (getFilesHash ({ s with files := p ++ g :: q } : PGState).files) := by
      have hlc : s.lastCompiled = some (getFilesHash (p ++ f :: q)) := by
        rw [hc, hfq]
      show ¬ s.lastCompiled = some (getFilesHash (p ++ g :: q))
      rw [hlc]
      intro hx
      exact getFilesHash_single_edit_ne p q f g hne hfield (Option.some.inj hx)
    have haf := addAll_ok M (p ++ g :: q) hadd [] [Ev.clear]
    rw [runCodeLoaded_changed_ok M clock _ _ _ hc2 haf]
    obtain ⟨hf2, hl2, hg2, hcch2, ext, hext, hxr⟩ := renderPhase_facts M clock _ _
    refine ⟨by rw [hcch2], by rw [hl2], by rw [hg2]; simp, ext, ?_, hxr⟩
    rw [hext]
    simp

/-- C3 witness: the cached part at the compiled a-1 state, and the edit
part at the single-file code edit from 1 to 2. -/
theorem c3_witness :
    (runCodeLoaded mRenderFail clock0 sCompiledA1).1.ui.cached = true ∧
    (runCodeLoaded mRenderFail clock0
      { sCompiledA1 with files := [⟨"a", "2"⟩] }).1.ui.cached = false ∧
    (runCodeLoaded mRenderFail clock0
      { sCompiledA1 with files := [⟨"a", "2"⟩] }).1.lastCompiled
      = some (getFilesHash [⟨"a", "2"⟩]) := by
  refine ⟨((c3_compile_cache mRenderFail clock0 sCompiledA1 [] []
      ⟨"a", "1"⟩ ⟨"a", "2"⟩).1 (by decide)).1, ?_, ?_⟩
  · exact ((c3_compile_cache mRenderFail clock0 sCompiledA1 [] []
      ⟨"a", "1"⟩ ⟨"a", "2"⟩).2 (by decide) (by decide) (by simp) (by decide)
      (by decide)).1
  · exact ((c3_compile_cache mRenderFail clock0 sCompiledA1 [] []
      ⟨"a", "1"⟩ ⟨"a", "2"⟩).2 (by decide) (by decide) (by simp) (by decide)
      (by decide)).2.1

/-- C6: after a reset the cache slot is null, so the next run is reported
not cached and begins with a clearTemplates call whatever the contents;
when the module accepts every file the full rebuild completes, recording
the hash of the restored initial files before any render call. -/
theorem c6_reset_invalidates_cache (M : WasmModule) (clock : Nat → ℚ)
    (icode : String) (ifiles : List VFile) (s : PGState) :
    (reset icode ifiles s).lastCompiled = none ∧
    (runCodeLoaded M clock (reset icode ifiles s)).1.ui.cached = false ∧
    (runCodeLoaded M clock (reset icode ifiles s)).2.head? = some Ev.clear ∧
    ((∀ x ∈ getInitialFiles icode ifiles, M.addCode x.name x.code = 0) →
      (runCodeLoaded M clock (reset icode ifiles s)).1.reg
        = getInitialFiles icode ifiles ∧
      (runCodeLoaded M clock (reset icode ifiles s)).1.lastCompiled
        = some (getFilesHash (getInitialFiles icode ifiles)) ∧
      ∃ ext,
        (runCodeLoaded M clock (reset icode ifiles s)).2
          = Ev.clear :: ((getInitialFiles icode ifiles).map
              (fun x => Ev.add x.name x.code)) ++ ext ∧
        ∀ x ∈ ext, x.isRender = true) := by
  have hc : ¬ (reset icode ifiles s).lastCompiled
      = some (getFilesHash (reset icode ifiles s).files) := by
    show ¬ (none : Option String) = some _
    simp
  rcases haf : addAll M [] (reset icode ifiles s).files [Ev.clear]
    with ⟨reg2, evs2, o⟩
  obtain ⟨ext0, hext0, _⟩ := addAll_evs M (reset icode ifiles s).files [] [Ev.clear]
  rw [haf] at hext0
  have hevs2 : evs2 = [Ev.clear] ++ ext0 := hext0
  cases o with
  | some msg =>
    rw [runCodeLoaded_changed_fail M clock _ reg2 evs2 msg hc haf]
    refine ⟨rfl, rfl, ?_, ?_⟩
    · show evs2.head? = some Ev.clear
      rw [hevs2]; rfl
    · intro hadd
      have haf2 := addAll_ok M (getInitialFiles icode ifiles) hadd [] [Ev.clear]
      rw [show (reset icode ifiles s).files = getInitialFiles icode ifiles
        from rfl] at haf
      rw [haf] at haf2
      simp at haf2
  | none =>
    rw [runCodeLoaded_changed_ok M clock _ reg2 evs2 hc haf]
    obtain ⟨hf2, hl2, hg2, hcch2, ext, hext, hxr⟩ := renderPhase_facts M clock _ evs2
    refine ⟨rfl, by rw [hcch2], ?_, ?_⟩
    · rw [hext, hevs2]; rfl
    · intro hadd
      have haf2 := addAll_ok M (getInitialFiles icode ifiles) hadd [] [Ev.clear]
      rw [show (reset icode ifiles s).files = getInitialFiles icode ifiles
        from rfl] at haf
      rw [haf] at haf2
      simp only [Prod.mk.injEq, List.nil_append, List.singleton_append] at haf2
      obtain ⟨hreg, hevs, _⟩ := haf2
      refine ⟨by rw [hg2]; exact hreg, by rw [hl2]; rfl, ext, ?_, hxr⟩
      rw [hext, ← hevs]

/-- C6 witness: the theorem evaluated after resetting the compiled a-1
state to a playground whose initial code prop is x. -/
theorem c6_witness :
    (runCodeLoaded mRenderFail clock0 (reset "x" [] sCompiledA1)).1.ui.cached
      = false ∧
    (runCodeLoaded mRenderFail clock0 (reset "x" [] sCompiledA1)).1.lastCompiled
      = some (getFilesHash (getInitialFiles "x" [])) := by
  refine ⟨(c6_reset_invalidates_cache mRenderFail clock0 "x" [] sCompiledA1).2.1,
    ((c6_reset_invalidates_cache mRenderFail clock0 "x" [] sCompiledA1).2.2.2
      (by decide)).2.1⟩

/-- C9: every run that reaches its (non-throwing) render samples the
render call exactly three times on the same entry name and empty context,
retains the minimum of the three sampled durations as the render time, and
derives the displayed output or error from the render result produced by
this run. -/
theorem c9_render_sampled_fresh (M : WasmModule) (clock : Nat → ℚ)
    (s : PGState) (entry : VFile) (r : RenderResult) (k : Nat)
    (he : entryFileOf s.files = some entry)
    (hr : renderWithError M entry.name "{}" = (Except.ok r, k))
    (hcomp : s.lastCompiled ≠ some (getFilesHash s.files) →
      (addAll M [] s.files [Ev.clear]).2.2 = none) :
    (runCodeLoaded M clock s).2.countP Ev.isRender = 3 ∧
    (∀ e ∈ (runCodeLoaded M clock s).2, e.isRender = true →
      e = Ev.render entry.name "{}") ∧
    (∃ b, (runCodeLoaded M clock s).1.ui.renderTime
      = some (minSamples (sampleDurs clock b 3))) ∧
    (r.success = true → (runCodeLoaded M clock s).1.ui.output = r.html ∧
      (runCodeLoaded M clock s).1.ui.error = none) ∧
    (r.success = false → (runCodeLoaded M clock s).1.ui.error = r.error ∧
      (runCodeLoaded M clock s).1.ui.output = some "") := by
  obtain ⟨s1, evs1, heq, hfiles, _, hnr⟩ :=
    runCodeLoaded_reaches_render M clock s hcomp
  have he1 : entryFileOf s1.files = some entry := by rw [hfiles]; exact he
  have h0 : evs1.countP Ev.isRender = 0 := by
    rw [List.countP_eq_zero]
    intro a ha
    simp [hnr a ha]
  have hrep : (List.replicate 3 (Ev.render entry.name "{}")).countP Ev.isRender
      = 3 := rfl
  have hmem : ∀ e ∈ evs1 ++ List.replicate 3 (Ev.render entry.name "{}"),
      e.isRender = true → e = Ev.render entry.name "{}" := by
    intro e he2 hre
    rcases List.mem_append.mp he2 with h1 | h1
    · rw [hnr e h1] at hre; cases hre
    · exact List.eq_of_mem_replicate h1
  rw [heq]
  by_cases hs : r.success = true
  · rw [renderPhase_ok_true M clock s1 entry r k evs1 he1 hr hs]
    refine ⟨?_, hmem, ⟨s1.clk, rfl⟩, fun _ => ⟨rfl, rfl⟩, fun hf => ?_⟩
    · rw [List.countP_append, h0, hrep]
    · rw [hs] at hf; cases hf
  · simp only [Bool.not_eq_true] at hs
    rw [renderPhase_ok_false M clock s1 entry r k evs1 he1 hr hs]
    refine ⟨?_, hmem, ⟨s1.clk, rfl⟩, fun hf => ?_, fun _ => ⟨rfl, rfl⟩⟩
    · rw [List.countP_append, h0, hrep]
    · rw [hs] at hf; cases hf

/-- C9 witness: the theorem evaluated on the cached a-1 state against the
module whose render reports a failure. -/
theorem c9_witness :
    (runCodeLoaded mRenderFail clock0 sCompiledA1).2.countP Ev.isRender = 3 := by
  exact (c9_render_sampled_fresh mRenderFail clock0 sCompiledA1 ⟨"a", "1"⟩
    { success := false, html := none, error := some "Unclosed if block" } 1
    (by decide) rfl (fun hx => absurd (by decide) hx)).1

/-- C2 amended: a failed run does not leave the previous output in place;
it stores the failure message in the error state (which the UI displays in
place of the output) and clears the output state to the empty string, for
both failure kinds: a render result reporting success false, and a
registry-mutation throw during the rebuild. -/
theorem c2_failure_clears_output (M : WasmModule) (clock : Nat → ℚ)
    (s : PGState) (entry : VFile) (r : RenderResult) (k : Nat)
    (reg2 : List VFile) (evs2 : List Ev) (msg : String) :
    (entryFileOf s.files = some entry →
      renderWithError M entry.name "{}" = (Except.ok r, k) →
      r.success = false →
      (s.lastCompiled ≠ some (getFilesHash s.files) →
        (addAll M [] s.files [Ev.clear]).2.2 = none) →
      (runCodeLoaded M clock s).1.ui.error = r.error ∧
      (runCodeLoaded M clock s).1.ui.output = some "") ∧
    (¬ s.lastCompiled = some (getFilesHash s.files) →
      addAll M [] s.files [Ev.clear] = (reg2, evs2, some msg) →
      (runCodeLoaded M clock s).1.ui.error = some msg ∧
      (runCodeLoaded M clock s).1.ui.output = some "") := by
  constructor
  · intro he hr hs hcomp
    obtain ⟨s1, evs1, heq, hfiles, _, _⟩ :=
      runCodeLoaded_reaches_render M clock s hcomp
    rw [heq, renderPhase_ok_false M clock s1 entry r k evs1
      (by rw [hfiles]; exact he) hr hs]
    exact ⟨rfl, rfl⟩
  · intro hc haf
    rw [runCodeLoaded_changed_fail M clock s reg2 evs2 msg hc haf]
    exact ⟨rfl, rfl⟩

/-- C2 witness: the amended statement evaluated on the cached a-1 state
against the module whose render reports a failure. -/
theorem c2_witness :
    (runCodeLoaded mRenderFail clock0 sCompiledA1).1.ui.error
      = some "Unclosed if block" ∧
    (runCodeLoaded mRenderFail clock0 sCompiledA1).1.ui.output = some "" := by
  have h := (c2_failure_clears_output mRenderFail clock0 sCompiledA1 ⟨"a", "1"⟩
    { success := false, html := none, error := some "Unclosed if block" } 1
    [] [] "").1 (by decide) rfl rfl (fun hx => absurd (by decide) hx)
  exact ⟨h.1, h.2⟩

/-- One loader call preserves the loader invariant, returns the single
job 0, leaves exactly one begun sequence, and never decreases the count of
begun sequences. -/
theorem loadCall_props (s : LoadState) (h : LoadInv s) :
    LoadInv (loadCall s).1 ∧ (loadCall s).2 = 0 ∧
    (loadCall s).1.starts = 1 ∧ s.starts ≤ (loadCall s).1.starts := by
  rcases h with ⟨h0, hl, hm⟩ | ⟨h1, hl, hm⟩
  · simp [loadCall, LoadInv, h0, hl, hm]
  · rcases hm with hm | hm <;> simp [loadCall, LoadInv, h1, hl, hm]

/-- Completion preserves the loader invariant and the count of begun
sequences. -/
theorem loadComplete_props (ok : Bool) (s : LoadState) (h : LoadInv s) :
    LoadInv (loadComplete ok s) ∧ (loadComplete ok s).starts = s.starts := by
  cases ok with
  | false => exact ⟨h, rfl⟩
  | true =>
    rcases h with ⟨h0, hl, hm⟩ | ⟨h1, hl, hm⟩
    · simp [loadComplete, LoadInv, h0, hl, hm]
    · simp [loadComplete, LoadInv, h1, hl, hm]

/-- Any interleaving of loader calls and completions preserves the
invariant, keeps the begun-sequence count monotone, resolves every call to
job 0, and has begun at least one sequence once a call occurred. -/
theorem loadSteps_props :
    ∀ (evs : List LEv) (s : LoadState), LoadInv s →
      LoadInv (loadSteps s evs).1 ∧
      s.starts ≤ (loadSteps s evs).1.starts ∧
      (∀ r ∈ (loadSteps s evs).2, r = 0) ∧
      (LEv.call ∈ evs → 1 ≤ (loadSteps s evs).1.starts) := by
  intro evs
  induction evs with
  | nil =>
    intro s h
    exact ⟨h, le_refl _, by simp [loadSteps], by simp⟩
  | cons e rest ih =>
    intro s h
    cases e with
    | call =>
      obtain ⟨hinv, hr0, hst1, hmono⟩ := loadCall_props s h
      obtain ⟨hinv2, hmono2, hall, _⟩ := ih (loadCall s).1 hinv
      simp only [loadSteps]
      refine ⟨hinv2, le_trans hmono hmono2, ?_, fun _ => ?_⟩
      · intro r hrm
        rcases List.mem_cons.mp hrm with h1 | h1
        · rw [h1]; exact hr0
        · exact hall r h1
      · calc 1 = (loadCall s).1.starts := hst1.symm
          _ ≤ _ := hmono2
    | complete ok =>
      obtain ⟨hinv, hsame⟩ := loadComplete_props ok s h
      obtain ⟨hinv2, hmono2, hall, hcall⟩ := ih (loadComplete ok s) hinv
      simp only [loadSteps]
      refine ⟨hinv2, ?_, hall, fun hc => hcall ?_⟩
      · rw [← hsame]; exact hmono2
      · rcases List.mem_cons.mp hc with h1 | h1
        · cases h1
        · exact h1

/-- C5: across any interleaving of loadLuatModule calls and the completion
of the in-flight load, at most one fetch-and-initialize sequence is ever
begun (exactly one once any call occurred), and every call, including
calls issued before the first completes, resolves to the same single
job. -/
theorem c5_load_idempotent (evs : List LEv) :
    (loadSteps initLoad evs).1.starts ≤ 1 ∧
    (∀ r ∈ (loadSteps initLoad evs).2, r = 0) ∧
    (LEv.call ∈ evs → (loadSteps initLoad evs).1.starts = 1) := by
  have hinv : LoadInv initLoad := Or.inl ⟨rfl, rfl, rfl⟩
  obtain ⟨hI, _, hall, hcall⟩ := loadSteps_props evs initLoad hinv
  refine ⟨?_, hall, fun hc => ?_⟩
  · rcases hI with ⟨h0, _⟩ | ⟨h1, _⟩ <;> omega
  · have h1 := hcall hc
    rcases hI with ⟨h0, _⟩ | ⟨h2, _⟩ <;> omega

/-- C5 witness: two concurrent mounts, a completion and a late call beget
exactly one fetch-and-initialize sequence, every call resolving to job 0. -/
theorem c5_witness :
    (loadSteps initLoad
      [LEv.call, LEv.call, LEv.complete true, LEv.call]).1.starts = 1 ∧
    ∀ r ∈ (loadSteps initLoad
      [LEv.call, LEv.call, LEv.complete true, LEv.call]).2, r = 0 := by
  exact ⟨(c5_load_idempotent [LEv.call, LEv.call, LEv.complete true,
      LEv.call]).2.2 (by decide),
    (c5_load_idempotent [LEv.call, LEv.call, LEv.complete true,
      LEv.call]).2.1⟩

theorem noRenderBeforeInit_initFail (c : Int) (hc : ¬ c = 0) (l : List Ev) :
    noRenderBeforeInit (Ev.initCall c :: l) = noRenderBeforeInit l := by
  simp [noRenderBeforeInit, hc]

/-- Starting from any session state without a delivered module, no render
call ever precedes a successful init call in the emitted trace. -/
theorem sessRun_nrbi (M : WasmModule) (clock : Nat → ℚ) (icode : String)
    (ifiles : List VFile) :
    ∀ (acts : List SAct) (s : SessState), s.luat = false →
      noRenderBeforeInit (sessRun M clock icode ifiles s acts).2 = true := by
  intro acts
  induction acts with
  | nil => intro s _; rfl
  | cons a rest ih =>
    intro s hl
    cases a with
    | load scriptOk c =>
      simp only [sessRun, sessStep]
      by_cases hst : s.loadStarted
      · simp only [hst, if_true, List.nil_append]
        exact ih s hl
      · simp only [hst, if_false, Bool.false_eq_true]
        by_cases hsc : scriptOk
        · simp only [hsc, if_true]
          by_cases hc : c = 0
          · subst hc
            rw [List.singleton_append]
            rfl
          · rw [List.singleton_append, noRenderBeforeInit_initFail c hc]
            apply ih
            simp [hc]
        · simp only [hsc, if_false, Bool.false_eq_true, List.nil_append]
          exact ih _ hl
    | run =>
      simp only [sessRun, sessStep, hl]
      simp only [if_false, Bool.false_eq_true]
      rw [show runCode none clock s.pg = (s.pg, []) from rfl]
      simp only [List.nil_append]
      exact ih _ rfl
    | reset =>
      simp only [sessRun, sessStep, List.nil_append]
      exact ih _ hl
    | edit i f =>
      simp only [sessRun, sessStep, List.nil_append]
      exact ih _ hl

/-- C7: in every execution of the component, the trace of foreign calls
never contains a render before a successful init: a run attempted while
the module is not yet delivered, or after a failed script load or a
non-zero init, makes no foreign call at all. -/
theorem c7_no_render_before_init (M : WasmModule) (clock : Nat → ℚ)
    (icode : String) (ifiles : List VFile) (acts : List SAct) :
    noRenderBeforeInit
      (sessRun M clock icode ifiles (initSess icode ifiles) acts).2 = true ∧
    ∀ (clock2 : Nat → ℚ) (s : PGState), runCode none clock2 s = (s, []) := by
  exact ⟨sessRun_nrbi M clock icode ifiles acts (initSess icode ifiles) rfl,
    fun _ _ => rfl⟩

/-- C1: the compilation-cache invariant is claimed to hold after every
run, a failed rebuild forcing the next run to be fresh.  The code violates
this: when addTemplate throws partway through a rebuild, the catch handler
leaves lastCompiledRef holding the hash of the previously compiled
content, while the registry now holds the partial new content; editing
back to the previous content then yields a run that is reported cached,
makes no registry call, and renders against a registry that does not match
the files. -/
theorem c1_cache_invariant_code_bug :
    cacheInv sCompiledA1 ∧
    c1run1.1.ui.error = some "Failed to add template: b" ∧
    ¬ cacheInv c1run1.1 ∧
    c1run2.1.ui.cached = true ∧
    c1run2.2.all Ev.isRender = true ∧
    c1run2.1.reg = [⟨"a", "2"⟩] ∧
    getFilesHash c1run2.1.files ≠ getFilesHash c1run2.1.reg := by
  decide

/-- C2 counterexample: a run whose render reports success false sets the
error message but also clears the previously displayed successful output,
refuting the claim that the prior output state is left unchanged. -/
theorem c2_counterexample :
    sCompiledA1.ui.output = some "<h1>1</h1>" ∧
    (runCodeLoaded mRenderFail clock0 sCompiledA1).1.ui.error
      = some "Unclosed if block" ∧
    (runCodeLoaded mRenderFail clock0 sCompiledA1).1.ui.output = some "" ∧
    (runCodeLoaded mRenderFail clock0 sCompiledA1).1.ui.output
      ≠ sCompiledA1.ui.output := by
  decide

/-- C4 counterexample: clearTemplates discards the return code of
luat_clear_templates, so a non-zero code raises nothing, refuting the
claim for the clearTemplates half of the foreign boundary. -/
theorem c4_counterexample :
    mClearFail.clearCode ≠ 0 ∧
    clearTemplates mClearFail [⟨"a", "1"⟩] = Except.ok [] := by
  exact ⟨by decide, rfl⟩

/-- C4 amended: for every addTemplate call a non-zero return code of
luat_add_template is raised as an error naming the offending file and a
zero return code raises nothing; clearTemplates ignores its return code
and never raises. -/
theorem c4_add_template_return_codes (M : WasmModule) (reg : List VFile)
    (path source : String) :
    (M.addCode path source ≠ 0 →
      addTemplate M reg path source
        = Except.error ("Failed to add template: " ++ path)) ∧
    (M.addCode path source = 0 →
      addTemplate M reg path source = Except.ok (reg ++ [⟨path, source⟩])) ∧
    clearTemplates M reg = Except.ok [] := by
  refine ⟨fun h => ?_, fun h => ?_, rfl⟩ <;> simp [addTemplate, h]

/-- C4 witness: the amended statement evaluated on the concrete module
that rejects the path b and accepts the path a. -/
theorem c4_witness :
    addTemplate mAddFailB [] "b" "x" = Except.error "Failed to add template: b" ∧
    addTemplate mAddFailB [] "a" "1" = Except.ok [⟨"a", "1"⟩] := by
  refine ⟨(c4_add_template_return_codes mAddFailB [] "b" "x").1 (by decide),
    ?_⟩
  have h := (c4_add_template_return_codes mAddFailB [] "a" "1").2.1 (by decide)
  simpa using h

/-- C8: a null render pointer frees nothing and yields the fixed internal
error distinct from a template-level error; a non-null pointer is freed
exactly once on every path, the parsed JSON being returned (or, on a parse
failure, thrown after the free). -/
theorem c8_render_buffer_ownership (M : WasmModule) (entry ctx : String) :
    (M.renderPtr entry ctx = 0 →
      renderWithError M entry ctx
        = (Except.ok { success := false, html := none, error := some "Internal error" }, 0)) ∧
    (M.renderPtr entry ctx ≠ 0 →
      (renderWithError M entry ctx).2 = 1 ∧
      (∀ r, M.renderJson entry ctx = some r →
        renderWithError M entry ctx = (Except.ok r, 1)) ∧
      (M.renderJson entry ctx = none →
        renderWithError M entry ctx
          = (Except.error "SyntaxError: JSON parse failed", 1))) := by
  unfold renderWithError
  by_cases h : M.renderPtr entry ctx = 0
  · simp [h]
  · simp [h]
    cases hj : M.renderJson entry ctx <;> simp [hj]

/-- C8 witness: the theorem evaluated on the null-pointer module and on
the module that returns a failing parsed result. -/
theorem c8_witness :
    renderWithError mNullPtr "a" "{}"
      = (Except.ok { success := false, html := none, error := some "Internal error" }, 0) ∧
    (renderWithError mRenderFail "a" "{}").2 = 1 := by
  exact ⟨(c8_render_buffer_ownership mNullPtr "a" "{}").1 (by decide),
    ((c8_render_buffer_ownership mRenderFail "a" "{}").2 (by decide)).1⟩

/-- C10: the initial virtual-file list is never empty; a non-empty files
prop wins, else a non-empty code prop yields the single main.luat file,
else the single empty main.luat file. -/
theorem c10_initial_files (code : String) (files : List VFile) :
    getInitialFiles code files ≠ [] ∧
    (files ≠ [] → getInitialFiles code files = files) ∧
    (files = [] → code ≠ "" →
      getInitialFiles code files = [⟨"main.luat", code⟩]) ∧
    (files = [] → code = "" →
      getInitialFiles code files = [⟨"main.luat", ""⟩]) := by
  cases files with
  | nil => by_cases hc : code = "" <;> simp [getInitialFiles, hc]
  | cons f rest => simp [getInitialFiles]

/-- C10 witness: the theorem evaluated at the defaulted props and at a
non-empty files prop. -/
theorem c10_witness :
    getInitialFiles "" [] = [⟨"main.luat", ""⟩] ∧
    getInitialFiles "x" [⟨"a", "1"⟩] = [⟨"a", "1"⟩] := by
  exact ⟨(c10_initial_files "" []).2.2.2 rfl rfl,
    (c10_initial_files "x" [⟨"a", "1"⟩]).2.1 (by decide)⟩

end LuatSite
